import Mathlib

/-!
# Verification of the whale-tracker detection pipeline

Shallow embedding of the repository's deduplicated event-detection and
notification pipeline, together with theorems checking the specification's
claims against it.

The repository contains two JavaScript server variants sharing one core:

* the Kalshi order-book variant (`server.js`): polls order books, computes
  `orderValue = count * price / 100`, fingerprints each qualifying order as
  the delimited string `ticker_side_price_count`, deduplicates against a
  `Set` of seen fingerprints (insertion-ordered, compacted from 5000 down to
  the most recent 2500), keeps the 100 most recent whales most-recent-first,
  and fires a best-effort Discord webhook; read-only GET endpoints project
  this state;
* the Polymarket trade-feed variant: polls trade lists, filters by notional
  `size * price` and wallet age, deduplicates by trade id, keeps the 100
  most recent trades, and additionally exposes `POST /api/config` which
  mutates the detection configuration in place.

JavaScript numbers are modelled as `Int` (counts, prices in minor units) and
`Rat` (derived notionals, where the source divides); JS template-literal
rendering of an integer is modelled by `intDecStr`; a JS `Set` of strings is
modelled as its insertion-ordered list of distinct elements; network calls
(webhook delivery, wallet-age enrichment) are modelled as oracle parameters.
-/

/-! ## Decimal rendering of JS numbers

`natDecStr`/`intDecStr` embed the string a JS template literal produces for
an integer-valued number: standard decimal notation, `-` sign for negatives,
`"0"` for zero. -/

/-- Decimal string of a natural number, via `Nat.digits 10` (big-endian
digit characters), rendering `0` as `"0"` as JS does. -/
def natDecStr (n : Nat) : String :=
  if n = 0 then ("0") else ((Nat.digits 10 n).reverse.map Nat.digitChar).asString

/-- Decimal string of an integer: a leading `-` for negatives, as JS
template literals render integer-valued numbers. -/
def intDecStr (i : Int) : String :=
  if i < 0 then ("-") ++ natDecStr i.natAbs else natDecStr i.natAbs

lemma asString_inj (l1 l2 : List Char) (h : l1.asString = l2.asString) : l1 = l2 := by
  have := congrArg String.data h
  simpa [List.asString] using this

lemma digitChar_injOn : ∀ d < 10, ∀ e < 10, Nat.digitChar d = Nat.digitChar e → d = e := by
  decide

lemma digitChar_ne_dash : ∀ d < 10, Nat.digitChar d ≠ '-' := by
  decide

lemma map_digitChar_inj : ∀ {l1 l2 : List Nat}, (∀ d ∈ l1, d < 10) → (∀ d ∈ l2, d < 10) →
    l1.map Nat.digitChar = l2.map Nat.digitChar → l1 = l2
  | [], [], _, _, _ => rfl
  | [], _ :: _, _, _, h => by simp at h
  | _ :: _, [], _, _, h => by simp at h
  | a :: l1, b :: l2, h1, h2, h => by
    simp only [List.map_cons, List.cons.injEq] at h
    have ha : a < 10 := h1 a (List.mem_cons_self a l1)
    have hb : b < 10 := h2 b (List.mem_cons_self b l2)
    have : a = b := digitChar_injOn a ha b hb h.1
    have ht : l1 = l2 :=
      map_digitChar_inj (fun d hd => h1 d (List.mem_cons_of_mem _ hd))
        (fun d hd => h2 d (List.mem_cons_of_mem _ hd)) h.2
    rw [this, ht]

lemma natDecStr_ne_zero_str {n : Nat} (hn : n ≠ 0) : natDecStr n ≠ "0" := by
  unfold natDecStr
  rw [if_neg hn]
  intro h
  have hmap : (Nat.digits 10 n).reverse.map Nat.digitChar = ['0'] :=
    asString_inj ((Nat.digits 10 n).reverse.map Nat.digitChar) (['0']) h
  have hlen : (Nat.digits 10 n).reverse.length = 1 := by
    have := congrArg List.length hmap
    simpa using this
  obtain ⟨d, hds⟩ : ∃ d, (Nat.digits 10 n).reverse = [d] := by
    rcases hrev : (Nat.digits 10 n).reverse with _ | ⟨d, tl⟩
    · rw [hrev] at hlen
      simp at hlen
    · rw [hrev] at hlen
      simp only [List.length_cons, Nat.add_left_eq_self] at hlen
      have htl : tl = [] := List.length_eq_zero.mp (by omega)
      exact ⟨d, by rw [htl]⟩
  have hdig : Nat.digits 10 n = [d] := by
    have := congrArg List.reverse hds
    simpa using this
  have hchar : Nat.digitChar d = '0' := by
    rw [hds] at hmap
    simpa using hmap
  have hd10 : d < 10 := Nat.digits_lt_base (by norm_num)
    (by rw [hdig]; exact List.mem_singleton_self d)
  have hd0 : d = 0 := digitChar_injOn d hd10 0 (by norm_num) (by rw [hchar]; rfl)
  have h0 := Nat.ofDigits_digits 10 n
  rw [hdig, hd0] at h0
  exact hn (by simpa using h0.symm)

lemma natDecStr_injective : Function.Injective natDecStr := by
  intro m n h
  by_cases hm : m = 0 <;> by_cases hn : n = 0
  · rw [hm, hn]
  · exfalso
    rw [hm] at h
    exact natDecStr_ne_zero_str hn (h.symm.trans (by rw [natDecStr]; rfl))
  · exfalso
    rw [hn] at h
    exact natDecStr_ne_zero_str hm (h.trans (by rw [natDecStr]; rfl))
  · unfold natDecStr at h
    rw [if_neg hm, if_neg hn] at h
    have hd := asString_inj _ _ h
    have hmaps := map_digitChar_inj
      (fun d hd => Nat.digits_lt_base (by norm_num) (List.mem_reverse.mp hd))
      (fun d hd => Nat.digits_lt_base (by norm_num) (List.mem_reverse.mp hd)) hd
    have := List.reverse_injective hmaps
    exact Nat.digits.injective 10 this

lemma natDecStr_head_isDigit (n : Nat) :
    ∃ c l, (natDecStr n).data = c :: l ∧ c ≠ '-' := by
  unfold natDecStr
  by_cases hn : n = 0
  · exact ⟨'0', [], by simp [hn, String.data], by decide⟩
  · rw [if_neg hn]
    have hnil : Nat.digits 10 n ≠ [] := Nat.digits_ne_nil_iff_ne_zero.mpr hn
    rcases hrev : (Nat.digits 10 n).reverse with _ | ⟨d, tl⟩
    · exact absurd (by simpa using congrArg List.reverse hrev) hnil
    · refine ⟨Nat.digitChar d, tl.map Nat.digitChar, ?_, ?_⟩
      · simp [List.asString, hrev]
      · have hd10 : d < 10 := Nat.digits_lt_base (by norm_num)
          (by
            have : d ∈ (Nat.digits 10 n).reverse := by rw [hrev]; exact List.mem_cons_self d tl
            simpa using this)
        exact digitChar_ne_dash d hd10

lemma string_ext {s t : String} (h : s.data = t.data) : s = t := by
  cases s
  cases t
  exact congrArg String.mk h

lemma intDecStr_injective : Function.Injective intDecStr := by
  intro i j h
  unfold intDecStr at h
  by_cases hi : i < 0 <;> by_cases hj : j < 0
  · rw [if_pos hi, if_pos hj] at h
    have hdata := congrArg String.data h
    rw [String.data_append, String.data_append] at hdata
    have hh : ('-' : Char) :: (natDecStr i.natAbs).data
        = ('-' : Char) :: (natDecStr j.natAbs).data := hdata
    have habs : natDecStr i.natAbs = natDecStr j.natAbs := by
      apply string_ext
      injection hh
    have := natDecStr_injective habs
    omega
  · exfalso
    rw [if_pos hi, if_neg hj] at h
    obtain ⟨c, l, hcl, hc⟩ := natDecStr_head_isDigit j.natAbs
    have hdata := congrArg String.data h
    rw [String.data_append, hcl] at hdata
    have hh : ('-' : Char) :: (natDecStr i.natAbs).data = c :: l := hdata
    injection hh with h1 _
    exact hc h1.symm
  · exfalso
    rw [if_neg hi, if_pos hj] at h
    obtain ⟨c, l, hcl, hc⟩ := natDecStr_head_isDigit i.natAbs
    have hdata := congrArg String.data h
    rw [String.data_append, hcl] at hdata
    have hh : c :: l = ('-' : Char) :: (natDecStr j.natAbs).data := hdata
    injection hh with h1 _
    exact hc h1
  · rw [if_neg hi, if_neg hj] at h
    have := natDecStr_injective h
    omega

/-! ## Kalshi order-book variant (`server.js`)

Embeds the detection pipeline of the Kalshi variant: configuration,
order-book levels, the whale record, the in-memory state
(`recentWhales` most-recent-first list, `seenAlerts` dedup set modelled as
its insertion-ordered list of distinct fingerprints), the fingerprint
function `createOrderHash`, the notional computation, the bounded ring
push, one order's pass through `checkForLargeOrders`, and the
`seenAlerts` compaction step of `monitorKalshi`. -/

namespace KalshiServer

/-- Configuration: `MIN_TRADE_SIZE` (integer dollars, `parseInt` of the
environment or 15000) and `DISCORD_WEBHOOK` (empty string disables). -/
structure Config where
  minTradeSize : Int
  discordWebhook : String
deriving DecidableEq

/-- One price level of a fetched orderbook side; `count` and `price` may be
missing or malformed, in which case the code defaults them to 0
(`order.count || 0`). -/
structure OrderLevel where
  count : Option Int
  price : Option Int
deriving DecidableEq

/-- A committed DetectedEvent (`whale` object) as built in
`checkForLargeOrders`. -/
structure Whale where
  ticker : String
  market : String
  outcome : String
  amount : Rat
  price : Int
  count : Int
  timestamp : String
deriving DecidableEq

/-- In-memory storage: `recentWhales` (most-recent-first) and `seenAlerts`
(a JS `Set` of fingerprints, modelled as its insertion-ordered list of
distinct elements; `Array.from` of the set enumerates in this order). -/
structure ServerState where
  recentWhales : List Whale
  seenAlerts : List String
deriving DecidableEq

/-- `createOrderHash(ticker, side, price, count)`: the delimited template
string `ticker_side_price_count`. -/
def createOrderHash (ticker side : String) (price count : Int) : String :=
  ticker ++ "_" ++ side ++ "_" ++ intDecStr price ++ "_" ++ intDecStr count

/-- `orderValue = (count * price) / 100`, converting cents to dollars. -/
def orderValue (count price : Int) : Rat :=
  ((count * price : Int) : Rat) / 100

/-- Push onto a most-recent-first buffer of capacity 100:
`unshift` the new element, then `pop` the last when the length
exceeds 100. Shared by both variants. -/
def pushRecent {α : Type} (x : α) (l : List α) : List α :=
  let r := x :: l
  if r.length > 100 then r.dropLast else r

/-- Outcome of one notify attempt, as the spec classifies it. -/
inductive NotifyOutcome where
  | sent
  | skippedNoEndpoint
  | failed
deriving DecidableEq

/-- `sendDiscordAlert`: returns immediately when no webhook is configured;
otherwise posts the payload, logging success, and catching (swallowing) any
delivery error. Delivery success is an external-world fact, modelled by the
`deliveryOk` oracle. The function never throws to its caller. -/
def sendDiscordAlert (cfg : Config) (deliveryOk : Bool) : NotifyOutcome :=
  if cfg.discordWebhook = "" then .skippedNoEndpoint
  else if deliveryOk then .sent else .failed

/-- One order's pass through the loop body of `checkForLargeOrders`:
default missing fields to 0, compute the notional, compare against
`MIN_TRADE_SIZE` (inclusive), fingerprint, and if the fingerprint is not in
`seenAlerts`, record it, build the whale (with the current wall-clock
timestamp `now`), unshift it into `recentWhales` (evicting beyond 100), and
attempt the Discord alert. Returns the new state, the whales emitted (the
`whales.push` of the source), and the notify attempts made. -/
def processOrder (cfg : Config) (ticker title side now : String)
    (deliveryOk : Bool) (st : ServerState) (o : OrderLevel) :
    ServerState × List Whale × List NotifyOutcome :=
  let count := o.count.getD 0
  let price := o.price.getD 0
  let v := orderValue count price
  if (cfg.minTradeSize : Rat) ≤ v then
    let hash := createOrderHash ticker side price count
    if hash ∈ st.seenAlerts then (st, [], [])
    else
      let whale : Whale :=
        { ticker := ticker, market := title, outcome := side, amount := v,
          price := price, count := count, timestamp := now }
      ({ recentWhales := pushRecent whale st.recentWhales,
         seenAlerts := st.seenAlerts ++ [hash] },
       [whale], [sendDiscordAlert cfg deliveryOk])
  else (st, [], [])

/-- The `seenAlerts` compaction in `monitorKalshi`: when the set holds more
than 5000 fingerprints, enumerate it in insertion order, clear it, and
re-add only the last (most recently inserted) 2500 (`slice(-2500)`). -/
def cleanupOldHashes (seen : List String) : List String :=
  if seen.length > 5000 then seen.drop (seen.length - 2500) else seen

/-- Response body of `GET /api/whales`. -/
structure WhalesResp where
  whales : List Whale
  count : Nat
  minTradeSize : Int
deriving DecidableEq

/-- Response body of `GET /api/stats`. -/
structure StatsResp where
  totalWhales : Nat
  totalVolume : Rat
  avgWhaleSize : Rat
  lastUpdate : Option String
  uniqueOrdersTracked : Nat
deriving DecidableEq

/-- Response body of `GET /health`; `uptime` comes from the process clock,
passed in as an argument. -/
structure HealthResp where
  status : String
  uptime : Int
  whalesDetected : Nat
  uniqueOrdersTracked : Nat
  mode : String
deriving DecidableEq

/-- `GET /api/whales` handler: projects `recentWhales` and the configured
minimum; handlers are given the shared state and return it alongside the
response. -/
def apiWhales (cfg : Config) (st : ServerState) : WhalesResp × ServerState :=
  ({ whales := st.recentWhales, count := st.recentWhales.length,
     minTradeSize := cfg.minTradeSize }, st)

/-- `GET /api/stats` handler: aggregates over `recentWhales`. -/
def apiStats (st : ServerState) : StatsResp × ServerState :=
  let totalVolume := st.recentWhales.foldl (fun s w => s + w.amount) 0
  ({ totalWhales := st.recentWhales.length,
     totalVolume := totalVolume,
     avgWhaleSize :=
       if st.recentWhales.length > 0 then totalVolume / st.recentWhales.length else 0,
     lastUpdate := st.recentWhales.head?.map Whale.timestamp,
     uniqueOrdersTracked := st.seenAlerts.length }, st)

/-- `GET /health` handler. -/
def apiHealth (uptime : Int) (st : ServerState) : HealthResp × ServerState :=
  ({ status := "ok", uptime := uptime, whalesDetected := st.recentWhales.length,
     uniqueOrdersTracked := st.seenAlerts.length, mode := "kalshi-monitoring" }, st)

end KalshiServer

/-! ## Polymarket trade-feed variant

Embeds the second server variant: trade-list polling with notional and
wallet-age filters, id-based dedup, the bounded recent-trades list, the
read endpoints, and the `POST /api/config` endpoint that mutates the
configuration in place. Wallet age comes from an external chain-scan API
(`getWalletAge`), modelled as an oracle from maker address to
`Option Int` (`none` models the `null` returned on lookup failure). -/

namespace PolymarketServer

/-- Mutable configuration object (`CONFIG`). -/
structure Config where
  minTradeSize : Rat
  maxAccountAgeDays : Int
  discordWebhook : String
deriving DecidableEq

/-- A raw trade from the CLOB trades feed; `size` and `price` may be absent
(`parseFloat(trade.size || 0)`). -/
structure PTrade where
  id : String
  side : String
  size : Option Rat
  price : Option Rat
  makerAddr : String
deriving DecidableEq

/-- A committed processed trade as stored in `recentTrades`. -/
structure ProcessedTrade where
  id : String
  market : String
  outcome : String
  amount : Rat
  price : Rat
  address : String
  accountAge : Int
deriving DecidableEq

/-- In-memory storage of the Polymarket variant. -/
structure PState where
  recentTrades : List ProcessedTrade
  seenTradeIds : List String
deriving DecidableEq

/-- `processTrade`: drop if the id was seen; compute `amount = size * price`
with missing fields defaulted to 0; drop if below `MIN_TRADE_SIZE`
(strictly: `amount < CONFIG.MIN_TRADE_SIZE` rejects); look up wallet age
and drop on lookup failure (`null`) or age above the limit; otherwise
record the id, unshift into `recentTrades` (evicting beyond 100), and
return the committed trade. -/
def processTrade (cfg : Config) (walletAge : String → Option Int)
    (marketName : String) (st : PState) (t : PTrade) :
    PState × Option ProcessedTrade :=
  if t.id ∈ st.seenTradeIds then (st, none)
  else
    let size := t.size.getD 0
    let price := t.price.getD 0
    let amount := size * price
    if amount < cfg.minTradeSize then (st, none)
    else
      match walletAge t.makerAddr with
      | none => (st, none)
      | some age =>
        if age > cfg.maxAccountAgeDays then (st, none)
        else
          let pt : ProcessedTrade :=
            { id := t.id, market := marketName,
              outcome := if t.side = "BUY" then ("YES") else ("NO"),
              amount := amount, price := price, address := t.makerAddr,
              accountAge := age }
          ({ recentTrades := KalshiServer.pushRecent pt st.recentTrades,
             seenTradeIds := st.seenTradeIds ++ [t.id] },
           some pt)

/-- One market's pass of the monitoring loop: fold `processTrade` over the
fetched trades list, collecting the committed trades. -/
def processTrades (cfg : Config) (walletAge : String → Option Int)
    (marketName : String) (st : PState) (trades : List PTrade) :
    PState × List ProcessedTrade :=
  trades.foldl
    (fun acc t =>
      let r := processTrade cfg walletAge marketName acc.1 t
      (r.1, acc.2 ++ r.2.toList))
    (st, [])

/-- Request body of `POST /api/config`; absent keys leave the field alone. -/
structure ConfigBody where
  minTradeSize : Option Rat
  maxAccountAge : Option Int
  discordWebhook : Option String
deriving DecidableEq

/-- `POST /api/config` handler: `if (minTradeSize) CONFIG.MIN_TRADE_SIZE =
minTradeSize;` and likewise for the other two fields — a present, truthy
value overwrites the live configuration (JS truthiness: the number 0 and
the empty string do not). -/
def postConfig (cfg : Config) (b : ConfigBody) : Config :=
  let c1 :=
    match b.minTradeSize with
    | some v => if v ≠ 0 then { cfg with minTradeSize := v } else cfg
    | none => cfg
  let c2 :=
    match b.maxAccountAge with
    | some v => if v ≠ 0 then { c1 with maxAccountAgeDays := v } else c1
    | none => c1
  match b.discordWebhook with
  | some w => if w ≠ "" then { c2 with discordWebhook := w } else c2
  | none => c2

/-- Response body of `GET /api/trades`. -/
structure TradesResp where
  trades : List ProcessedTrade
  count : Nat
  minTradeSize : Rat
  maxAccountAge : Int
deriving DecidableEq

/-- `GET /api/trades` handler. -/
def apiTrades (cfg : Config) (st : PState) : TradesResp × PState :=
  ({ trades := st.recentTrades, count := st.recentTrades.length,
     minTradeSize := cfg.minTradeSize, maxAccountAge := cfg.maxAccountAgeDays }, st)

/-- Response body of the Polymarket `GET /api/stats`. -/
structure PStatsResp where
  totalTrades : Nat
  totalVolume : Rat
  avgTradeSize : Rat
deriving DecidableEq

/-- Polymarket `GET /api/stats` handler. -/
def apiStatsPm (st : PState) : PStatsResp × PState :=
  let totalVolume := st.recentTrades.foldl (fun s t => s + t.amount) 0
  ({ totalTrades := st.recentTrades.length, totalVolume := totalVolume,
     avgTradeSize :=
       if st.recentTrades.length > 0 then totalVolume / st.recentTrades.length
       else 0 }, st)

/-- Polymarket `GET /health` handler (status plus counters). -/
def apiHealthPm (st : PState) : (String × Nat) × PState :=
  (("ok", st.recentTrades.length), st)

end PolymarketServer

/-! ## Log-based source scanner -/

namespace LogScanner

/-- Modelled from the spec: an entry of a log-based source (e.g. a
blockchain event log), carrying the position (block number) at which it was
observed and its notional value. The blockchain log-scanner variant the
spec describes is not among the source files. -/
structure LogEntry where
  blockNum : Nat
  notional : Rat
deriving DecidableEq

/-- Modelled from the spec: the scanner's persistent position, `none`
before the first cycle. -/
structure ScannerState where
  position : Option Nat
deriving DecidableEq

/-- Modelled from the spec: one polling cycle of the log-based scanner. On
the very first cycle it establishes the current head as its starting
position and emits nothing; on later cycles it emits the qualifying entries
strictly beyond the established position and advances the position to the
current head. -/
def scanCycle (threshold : Rat) (st : ScannerState) (head : Nat)
    (log : List LogEntry) : ScannerState × List LogEntry :=
  match st.position with
  | none => ({ position := some head }, [])
  | some p =>
    ({ position := some head },
     log.filter (fun e => decide (p < e.blockNum) && decide (threshold ≤ e.notional)))

end LogScanner

/-! ## Helper lemmas about the Kalshi pipeline -/

section KalshiLemmas

open KalshiServer

/-- The code's acceptance test, restated over the integer cents. -/
lemma orderValue_ge_iff (m count price : Int) :
    ((m : Rat) ≤ orderValue count price) ↔ 100 * m ≤ count * price := by
  unfold orderValue
  rw [le_div_iff₀ (by norm_num : (0 : Rat) < 100), mul_comm]
  exact_mod_cast Iff.rfl

lemma pushRecent_eq_take {α : Type} (x : α) (l : List α) (hl : l.length ≤ 100) :
    pushRecent x l = (x :: l).take 100 := by
  unfold pushRecent
  by_cases h : (x :: l).length > 100
  · rw [if_pos h]
    have h101 : (x :: l).length = 101 := by
      simp only [List.length_cons] at h ⊢
      omega
    rw [List.dropLast_eq_take, h101]
  · rw [if_neg h]
    exact (List.take_of_length_le (by omega)).symm

lemma mem_pushRecent_self {α : Type} (x : α) (l : List α) : x ∈ pushRecent x l := by
  unfold pushRecent
  by_cases h : (x :: l).length > 100
  · rw [if_pos h]
    rcases l with _ | ⟨y, tl⟩
    · simp at h
    · exact List.mem_cons_self x ((y :: tl).dropLast)
  · rw [if_neg h]
    exact List.mem_cons_self x l

lemma take_append_take {α : Type} (a b : List α) :
    (a ++ b.take 100).take 100 = (a ++ b).take 100 := by
  rw [List.take_append_eq_append_take, List.take_append_eq_append_take, List.take_take]
  congr 1
  rw [Nat.min_eq_left (by omega : 100 - a.length ≤ 100)]

lemma foldl_pushRecent {α : Type} (es : List α) (r : List α) (hr : r.length ≤ 100) :
    es.foldl (fun acc e => pushRecent e acc) r = (es.reverse ++ r).take 100 := by
  induction es generalizing r with
  | nil =>
    simp only [List.foldl_nil, List.reverse_nil, List.nil_append]
    exact (List.take_of_length_le hr).symm
  | cons e es ih =>
    rw [List.foldl_cons, pushRecent_eq_take e r hr,
      ih ((e :: r).take 100) (by simp),
      take_append_take, List.reverse_cons, List.append_assoc]
    rfl

lemma processOrder_new (cfg : Config) (ticker title side now : String) (d : Bool)
    (st : ServerState) (o : OrderLevel)
    (hv : (cfg.minTradeSize : Rat) ≤ orderValue (o.count.getD 0) (o.price.getD 0))
    (hnew : createOrderHash ticker side (o.price.getD 0) (o.count.getD 0) ∉ st.seenAlerts) :
    processOrder cfg ticker title side now d st o =
      ({ recentWhales :=
           pushRecent
             { ticker := ticker, market := title, outcome := side,
               amount := orderValue (o.count.getD 0) (o.price.getD 0),
               price := o.price.getD 0, count := o.count.getD 0, timestamp := now }
             st.recentWhales,
         seenAlerts := st.seenAlerts
           ++ [createOrderHash ticker side (o.price.getD 0) (o.count.getD 0)] },
       [{ ticker := ticker, market := title, outcome := side,
          amount := orderValue (o.count.getD 0) (o.price.getD 0),
          price := o.price.getD 0, count := o.count.getD 0, timestamp := now }],
       [sendDiscordAlert cfg d]) := by
  simp only [processOrder]
  rw [if_pos hv, if_neg hnew]

lemma processOrder_seen (cfg : Config) (ticker title side now : String) (d : Bool)
    (st : ServerState) (o : OrderLevel)
    (hmem : createOrderHash ticker side (o.price.getD 0) (o.count.getD 0) ∈ st.seenAlerts) :
    processOrder cfg ticker title side now d st o = (st, [], []) := by
  simp only [processOrder]
  by_cases hv : (cfg.minTradeSize : Rat) ≤ orderValue (o.count.getD 0) (o.price.getD 0)
  · rw [if_pos hv, if_pos hmem]
  · rw [if_neg hv]

lemma processOrder_below (cfg : Config) (ticker title side now : String) (d : Bool)
    (st : ServerState) (o : OrderLevel)
    (hv : ¬ (cfg.minTradeSize : Rat) ≤ orderValue (o.count.getD 0) (o.price.getD 0)) :
    processOrder cfg ticker title side now d st o = (st, [], []) := by
  simp only [processOrder]
  rw [if_neg hv]

lemma processOrder_mono (cfg : Config) (ticker title side now : String) (d : Bool)
    (st : ServerState) (o : OrderLevel) (fp : String) (h : fp ∈ st.seenAlerts) :
    fp ∈ (processOrder cfg ticker title side now d st o).1.seenAlerts := by
  simp only [processOrder]
  by_cases hv : (cfg.minTradeSize : Rat) ≤ orderValue (o.count.getD 0) (o.price.getD 0)
  · rw [if_pos hv]
    by_cases hmem :
        createOrderHash ticker side (o.price.getD 0) (o.count.getD 0) ∈ st.seenAlerts
    · rw [if_pos hmem]
      exact h
    · rw [if_neg hmem]
      exact List.mem_append_left _ h
  · rw [if_neg hv]
    exact h

lemma append_inj_str {a b c : String} (h : a ++ b = a ++ c) : b = c := by
  have hd := congrArg String.data h
  rw [String.data_append, String.data_append] at hd
  exact string_ext (List.append_cancel_left hd)

end KalshiLemmas

/-! ## Claim theorems -/

section KalshiClaims

open KalshiServer

/-- C1: for an observation whose notional crosses the threshold, processing
it twice with no compaction between the two detections yields exactly one
whale and exactly one notify attempt: the first pass emits one of each, and
the second pass finds the fingerprint already in `seenAlerts` and leaves the
state untouched, emitting nothing. Moreover, no whale or alert is ever
emitted for a fingerprint while it is a member of `seenAlerts`, and
processing an order never removes a member (only compaction evicts). -/
theorem dedup_idempotence (cfg : KalshiServer.Config)
    (ticker title side now now' : String) (d d' : Bool)
    (st : KalshiServer.ServerState) (o : KalshiServer.OrderLevel)
    (hcross : 100 * cfg.minTradeSize ≤ o.count.getD 0 * o.price.getD 0)
    (hnew : createOrderHash ticker side (o.price.getD 0) (o.count.getD 0) ∉ st.seenAlerts) :
    ((processOrder cfg ticker title side now d st o).2.1.length = 1
      ∧ (processOrder cfg ticker title side now d st o).2.2.length = 1)
    ∧ processOrder cfg ticker title side now' d'
        (processOrder cfg ticker title side now d st o).1 o
      = ((processOrder cfg ticker title side now d st o).1, [], [])
    ∧ (∀ st' : KalshiServer.ServerState,
        createOrderHash ticker side (o.price.getD 0) (o.count.getD 0) ∈ st'.seenAlerts →
        processOrder cfg ticker title side now d st' o = (st', [], []))
    ∧ (∀ (st' : KalshiServer.ServerState) (fp : String), fp ∈ st'.seenAlerts →
        fp ∈ (processOrder cfg ticker title side now d st' o).1.seenAlerts) := by
  have hv : (cfg.minTradeSize : Rat) ≤ orderValue (o.count.getD 0) (o.price.getD 0) :=
    (orderValue_ge_iff _ _ _).mpr hcross
  have h1 := processOrder_new cfg ticker title side now d st o hv hnew
  refine ⟨⟨by rw [h1]; rfl, by rw [h1]; rfl⟩, ?_, ?_, ?_⟩
  · have hmem : createOrderHash ticker side (o.price.getD 0) (o.count.getD 0)
        ∈ (processOrder cfg ticker title side now d st o).1.seenAlerts := by
      rw [h1]
      exact List.mem_append_right _ (List.mem_singleton_self _)
    exact processOrder_seen cfg ticker title side now' d' _ o hmem
  · intro st' hmem
    exact processOrder_seen cfg ticker title side now d st' o hmem
  · intro st' fp h
    exact processOrder_mono cfg ticker title side now d st' o fp h

/-- C1 witness: a concrete qualifying order (500 contracts at 3001 cents,
threshold 15000 dollars) processed twice from the empty state. -/
theorem dedup_idempotence_witness :
    100 * (15000 : Int) ≤ 500 * 3001
    ∧ createOrderHash ("KXT") ("YES") 3001 500
        ∉ (KalshiServer.ServerState.mk [] []).seenAlerts
    ∧ (((processOrder ⟨15000, ""⟩ "KXT" "T" "YES" "t1" true ⟨[], []⟩
          ⟨some 500, some 3001⟩).2.1.length = 1
        ∧ (processOrder ⟨15000, ""⟩ "KXT" "T" "YES" "t1" true ⟨[], []⟩
            ⟨some 500, some 3001⟩).2.2.length = 1)
       ∧ processOrder ⟨15000, ""⟩ "KXT" "T" "YES" "t2" false
           (processOrder ⟨15000, ""⟩ "KXT" "T" "YES" "t1" true ⟨[], []⟩
             ⟨some 500, some 3001⟩).1 ⟨some 500, some 3001⟩
         = ((processOrder ⟨15000, ""⟩ "KXT" "T" "YES" "t1" true ⟨[], []⟩
              ⟨some 500, some 3001⟩).1, [], [])
       ∧ (∀ st' : KalshiServer.ServerState,
           createOrderHash ("KXT") ("YES") 3001 500 ∈ st'.seenAlerts →
           processOrder ⟨15000, ""⟩ "KXT" "T" "YES" "t1" true st' ⟨some 500, some 3001⟩
             = (st', [], []))
       ∧ (∀ (st' : KalshiServer.ServerState) (fp : String), fp ∈ st'.seenAlerts →
           fp ∈ (processOrder ⟨15000, ""⟩ "KXT" "T" "YES" "t1" true st'
             ⟨some 500, some 3001⟩).1.seenAlerts)) :=
  ⟨by decide, by decide,
   dedup_idempotence ⟨15000, ""⟩ "KXT" "T" "YES" "t1" "t2" true false ⟨[], []⟩
     ⟨some 500, some 3001⟩ (by decide) (by decide)⟩

/-- C2: the fingerprint is a pure total function of instrument, side, price
and quantity: it returns the same string on every call; the state it leaves
in the dedup ledger does not depend on the observation timestamp (`now` is
used only for the whale's display timestamp, never in the key); and for
fixed instrument, side and price, distinct quantities give distinct
fingerprints. -/
theorem fingerprint_stability (ticker side : String) (price q q' : Int)
    (cfg : KalshiServer.Config) (title now now' : String) (d : Bool)
    (st : KalshiServer.ServerState) (o : KalshiServer.OrderLevel) (hq : q ≠ q') :
    createOrderHash ticker side price q = createOrderHash ticker side price q
    ∧ createOrderHash ticker side price q ≠ createOrderHash ticker side price q'
    ∧ (processOrder cfg ticker title side now d st o).1.seenAlerts
        = (processOrder cfg ticker title side now' d st o).1.seenAlerts
    ∧ (processOrder cfg ticker title side now d st o).2.1.length
        = (processOrder cfg ticker title side now' d st o).2.1.length := by
  refine ⟨rfl, ?_, ?_, ?_⟩
  · intro hEq
    unfold createOrderHash at hEq
    exact hq (intDecStr_injective (append_inj_str hEq))
  · simp only [processOrder]
    by_cases hv : (cfg.minTradeSize : Rat) ≤ orderValue (o.count.getD 0) (o.price.getD 0)
    · rw [if_pos hv, if_pos hv]
      by_cases hmem :
          createOrderHash ticker side (o.price.getD 0) (o.count.getD 0) ∈ st.seenAlerts
      · rw [if_pos hmem, if_pos hmem]
      · rw [if_neg hmem, if_neg hmem]
    · rw [if_neg hv, if_neg hv]
  · simp only [processOrder]
    by_cases hv : (cfg.minTradeSize : Rat) ≤ orderValue (o.count.getD 0) (o.price.getD 0)
    · rw [if_pos hv, if_pos hv]
      by_cases hmem :
          createOrderHash ticker side (o.price.getD 0) (o.count.getD 0) ∈ st.seenAlerts
      · rw [if_pos hmem, if_pos hmem]
      · rw [if_neg hmem, if_neg hmem]
        rfl
    · rw [if_neg hv, if_neg hv]

/-- C2 witness: quantities 500 and 501 at fixed instrument, side and
price. -/
theorem fingerprint_stability_witness :
    (500 : Int) ≠ 501
    ∧ (createOrderHash ("KXT") ("YES") 42 500 = createOrderHash ("KXT") ("YES") 42 500
       ∧ createOrderHash ("KXT") ("YES") 42 500 ≠ createOrderHash ("KXT") ("YES") 42 501
       ∧ (processOrder ⟨15000, ""⟩ "KXT" "T" "YES" "t1" true ⟨[], []⟩
            ⟨some 500, some 42⟩).1.seenAlerts
           = (processOrder ⟨15000, ""⟩ "KXT" "T" "YES" "t2" true ⟨[], []⟩
               ⟨some 500, some 42⟩).1.seenAlerts
       ∧ (processOrder ⟨15000, ""⟩ "KXT" "T" "YES" "t1" true ⟨[], []⟩
            ⟨some 500, some 42⟩).2.1.length
           = (processOrder ⟨15000, ""⟩ "KXT" "T" "YES" "t2" true ⟨[], []⟩
               ⟨some 500, some 42⟩).2.1.length) :=
  ⟨by decide,
   fingerprint_stability ("KXT") ("YES") 42 500 501 ⟨15000, ""⟩ "T" "t1" "t2" true ⟨[], []⟩
     ⟨some 500, some 42⟩ (by decide)⟩

/-- C3: whenever `seenAlerts` holds more than 5000 fingerprints and
compaction runs, the surviving ledger has exactly 2500 entries (at most the
compaction target, which is below the 5000 cap) and is precisely the suffix
of the 2500 most recently inserted fingerprints, in insertion order. -/
theorem ledger_compaction_bound (seen : List String) (h : 5000 < seen.length) :
    (cleanupOldHashes seen).length = 2500
    ∧ (cleanupOldHashes seen).length ≤ 2500
    ∧ cleanupOldHashes seen = seen.drop (seen.length - 2500)
    ∧ (2500 : Nat) < 5000 := by
  unfold cleanupOldHashes
  rw [if_pos (by omega : seen.length > 5000)]
  have hlen : (seen.drop (seen.length - 2500)).length = 2500 := by
    rw [List.length_drop]
    omega
  exact ⟨hlen, by omega, rfl, by norm_num⟩

/-- C3 witness: a ledger of 5001 fingerprints. -/
theorem ledger_compaction_bound_witness :
    5000 < (List.replicate 5001 ("fp")).length
    ∧ ((cleanupOldHashes (List.replicate 5001 ("fp"))).length = 2500
       ∧ (cleanupOldHashes (List.replicate 5001 ("fp"))).length ≤ 2500
       ∧ cleanupOldHashes (List.replicate 5001 ("fp"))
           = (List.replicate 5001 ("fp")).drop ((List.replicate 5001 ("fp")).length - 2500)
       ∧ (2500 : Nat) < 5000) :=
  ⟨by simp only [List.length_replicate]; decide,
   ledger_compaction_bound (List.replicate 5001 ("fp"))
     (by simp only [List.length_replicate]; decide)⟩

/-- C4: pushing `100 + k` events into the empty recent-whales buffer leaves
exactly the 100 most recently pushed events, most-recent-first; a push onto
a buffer within its bound stays within the bound; and a push onto a full
buffer prepends the new event and evicts the oldest (last) one. -/
theorem ring_bound (es : List KalshiServer.Whale) (k : Nat) (h : es.length = 100 + k) :
    (es.foldl (fun acc e => pushRecent e acc) []).length = 100
    ∧ es.foldl (fun acc e => pushRecent e acc) [] = es.reverse.take 100
    ∧ (∀ (w : KalshiServer.Whale) (r : List KalshiServer.Whale),
        r.length ≤ 100 → (pushRecent w r).length ≤ 100)
    ∧ (∀ (w : KalshiServer.Whale) (r : List KalshiServer.Whale), r.length = 100 →
        pushRecent w r = w :: r.dropLast) := by
  have hmain : es.foldl (fun acc e => pushRecent e acc) [] = es.reverse.take 100 := by
    rw [foldl_pushRecent es [] (by simp)]
    simp
  refine ⟨?_, hmain, ?_, ?_⟩
  · rw [hmain, List.length_take, List.length_reverse]
    omega
  · intro w r hr
    rw [pushRecent_eq_take w r hr, List.length_take]
    omega
  · intro w r hr
    unfold pushRecent
    rw [if_pos (by simp [hr])]
    rcases r with _ | ⟨y, tl⟩
    · simp at hr
    · rfl

/-- C4 witness: 105 pushes. -/
theorem ring_bound_witness :
    (List.replicate 105 ((⟨"t", "m", "YES", 0, 0, 0, "ts"⟩ : KalshiServer.Whale))).length = 100 + 5
    ∧ (((List.replicate 105 ((⟨"t", "m", "YES", 0, 0, 0, "ts"⟩ : KalshiServer.Whale))).foldl
          (fun acc e => pushRecent e acc) []).length = 100
       ∧ (List.replicate 105 ((⟨"t", "m", "YES", 0, 0, 0, "ts"⟩ : KalshiServer.Whale))).foldl
           (fun acc e => pushRecent e acc) []
         = (List.replicate 105 ((⟨"t", "m", "YES", 0, 0, 0, "ts"⟩ : KalshiServer.Whale))).reverse.take 100
       ∧ (∀ (w : KalshiServer.Whale) (r : List KalshiServer.Whale),
           r.length ≤ 100 → (pushRecent w r).length ≤ 100)
       ∧ (∀ (w : KalshiServer.Whale) (r : List KalshiServer.Whale), r.length = 100 →
           pushRecent w r = w :: r.dropLast)) :=
  ⟨by simp only [List.length_replicate], ring_bound
    (List.replicate 105 ((⟨"t", "m", "YES", 0, 0, 0, "ts"⟩ : KalshiServer.Whale)))
    5 (by simp only [List.length_replicate])⟩

/-- C5: the notional is `count * price / 100` and the threshold test is
inclusive: an order whose cents total exactly `100 * MIN_TRADE_SIZE` has
notional equal to the minimum and is accepted (emitting one whale when
novel), while an order one cent below is rejected outright. -/
theorem threshold_boundary (cfg : KalshiServer.Config)
    (ticker title side now : String) (d : Bool) (st : KalshiServer.ServerState)
    (o o' : KalshiServer.OrderLevel)
    (hEq : o.count.getD 0 * o.price.getD 0 = 100 * cfg.minTradeSize)
    (hnew : createOrderHash ticker side (o.price.getD 0) (o.count.getD 0) ∉ st.seenAlerts)
    (hBelow : o'.count.getD 0 * o'.price.getD 0 = 100 * cfg.minTradeSize - 1) :
    orderValue (o.count.getD 0) (o.price.getD 0) = (cfg.minTradeSize : Rat)
    ∧ (processOrder cfg ticker title side now d st o).2.1.length = 1
    ∧ processOrder cfg ticker title side now d st o' = (st, [], []) := by
  have hval : orderValue (o.count.getD 0) (o.price.getD 0) = (cfg.minTradeSize : Rat) := by
    unfold orderValue
    rw [hEq]
    push_cast
    rw [mul_comm, mul_div_assoc]
    norm_num
  refine ⟨hval, ?_, ?_⟩
  · have hv : (cfg.minTradeSize : Rat) ≤ orderValue (o.count.getD 0) (o.price.getD 0) :=
      (orderValue_ge_iff _ _ _).mpr (le_of_eq hEq.symm)
    rw [processOrder_new cfg ticker title side now d st o hv hnew]
    rfl
  · refine processOrder_below cfg ticker title side now d st o' ?_
    intro hv
    have := (orderValue_ge_iff cfg.minTradeSize (o'.count.getD 0) (o'.price.getD 0)).mp hv
    omega

/-- C5 witness: threshold 15000 dollars; 500 contracts at 3000 cents total
exactly 1500000 cents (accepted); 1 contract at 1499999 cents is one cent
below (rejected). -/
theorem threshold_boundary_witness :
    (500 : Int) * 3000 = 100 * 15000
    ∧ createOrderHash ("KXT") ("YES") 3000 500
        ∉ (KalshiServer.ServerState.mk [] []).seenAlerts
    ∧ (1 : Int) * 1499999 = 100 * 15000 - 1
    ∧ (orderValue 500 3000 = ((15000 : Int) : Rat)
       ∧ (processOrder ⟨15000, ""⟩ "KXT" "T" "YES" "t1" true ⟨[], []⟩
            ⟨some 500, some 3000⟩).2.1.length = 1
       ∧ processOrder ⟨15000, ""⟩ "KXT" "T" "YES" "t1" true ⟨[], []⟩
           ⟨some 1, some 1499999⟩ = (⟨[], []⟩, [], [])) :=
  ⟨by decide, by decide, by decide,
   threshold_boundary ⟨15000, ""⟩ "KXT" "T" "YES" "t1" true ⟨[], []⟩
     ⟨some 500, some 3000⟩ ⟨some 1, some 1499999⟩ (by decide) (by decide) (by decide)⟩

end KalshiClaims

section RemainingClaims

open KalshiServer

/-- C6 counterexample: an observation with negative quantity (-2) and
negative price (-1000000 cents) has a strictly positive notional of 20000
dollars, crosses the positive threshold 15000, and is not dropped: it emits
a whale. -/
theorem threshold_sign_counterexample :
    ((-2 : Int) < 0)
    ∧ ((0 : Int) < 15000)
    ∧ KalshiServer.orderValue (-2) (-1000000) = 20000
    ∧ (((15000 : Int) : Rat) ≤ KalshiServer.orderValue (-2) (-1000000))
    ∧ (KalshiServer.processOrder ⟨15000, ""⟩ "KXT" "T" "YES" "t1" true ⟨[], []⟩
        ⟨some (-2), some (-1000000)⟩).2.1.length = 1 := by
  refine ⟨by decide, by decide, ?_, ?_, ?_⟩
  · unfold KalshiServer.orderValue
    norm_num
  · exact (orderValue_ge_iff 15000 (-2) (-1000000)).mpr (by decide)
  · rw [processOrder_new ⟨15000, ""⟩ "KXT" "T" "YES" "t1" true ⟨[], []⟩
      ⟨some (-2), some (-1000000)⟩ ((orderValue_ge_iff _ _ _).mpr (by decide)) (by decide)]
    rfl

/-- C6 (amended): for every observation in which quantity or price is zero
or negative and the two are not both negative, the notional is zero or
negative, it never crosses a positive configured threshold, and the
observation is silently dropped with the state unchanged (no error path
exists); missing fields default to zero and are likewise dropped. When
quantity and price are both negative the notional is positive and can cross
the threshold. -/
theorem nonpositive_drop_amended (cfg : KalshiServer.Config)
    (ticker title side now : String) (d : Bool) (st : KalshiServer.ServerState)
    (o : KalshiServer.OrderLevel)
    (hpos : 0 < cfg.minTradeSize)
    (hsign : (o.count.getD 0 ≤ 0 ∧ 0 ≤ o.price.getD 0)
      ∨ (0 ≤ o.count.getD 0 ∧ o.price.getD 0 ≤ 0)) :
    KalshiServer.orderValue (o.count.getD 0) (o.price.getD 0) ≤ 0
    ∧ KalshiServer.processOrder cfg ticker title side now d st o = (st, [], [])
    ∧ (KalshiServer.OrderLevel.mk none none).count.getD 0 = 0
    ∧ (KalshiServer.OrderLevel.mk none none).price.getD 0 = 0 := by
  have hprod : o.count.getD 0 * o.price.getD 0 ≤ 0 := by
    rcases hsign with ⟨h1, h2⟩ | ⟨h1, h2⟩
    · exact mul_nonpos_iff.mpr (Or.inr ⟨h1, h2⟩)
    · exact mul_nonpos_iff.mpr (Or.inl ⟨h1, h2⟩)
  have hv0 : KalshiServer.orderValue (o.count.getD 0) (o.price.getD 0) ≤ 0 := by
    unfold KalshiServer.orderValue
    apply div_nonpos_iff.mpr
    refine Or.inr ⟨?_, by norm_num⟩
    exact_mod_cast hprod
  have hno : ¬ (cfg.minTradeSize : Rat)
      ≤ KalshiServer.orderValue (o.count.getD 0) (o.price.getD 0) := by
    intro hle
    have hm : (0 : Rat) < (cfg.minTradeSize : Rat) := by exact_mod_cast hpos
    linarith
  exact ⟨hv0, processOrder_below cfg ticker title side now d st o hno, rfl, rfl⟩

/-- C6 witness: a missing quantity field (defaulting to 0) with a positive
price, against threshold 15000. -/
theorem nonpositive_drop_amended_witness :
    (0 : Int) < (15000 : Int)
    ∧ (((KalshiServer.OrderLevel.mk none (some 50)).count.getD 0 ≤ 0
        ∧ 0 ≤ (KalshiServer.OrderLevel.mk none (some 50)).price.getD 0)
       ∨ (0 ≤ (KalshiServer.OrderLevel.mk none (some 50)).count.getD 0
          ∧ (KalshiServer.OrderLevel.mk none (some 50)).price.getD 0 ≤ 0))
    ∧ (KalshiServer.orderValue ((KalshiServer.OrderLevel.mk none (some 50)).count.getD 0)
         ((KalshiServer.OrderLevel.mk none (some 50)).price.getD 0) ≤ 0
       ∧ KalshiServer.processOrder ⟨15000, ""⟩ "KXT" "T" "YES" "t1" true ⟨[], []⟩
           (KalshiServer.OrderLevel.mk none (some 50)) = (⟨[], []⟩, [], [])
       ∧ (KalshiServer.OrderLevel.mk none none).count.getD 0 = 0
       ∧ (KalshiServer.OrderLevel.mk none none).price.getD 0 = 0) :=
  ⟨by decide, by decide,
   nonpositive_drop_amended ⟨15000, ""⟩ "KXT" "T" "YES" "t1" true ⟨[], []⟩
     (KalshiServer.OrderLevel.mk none (some 50)) (by decide) (by decide)⟩

/-- C7: notification is best-effort and never rolls detection state back:
the resulting state and emitted whales are identical whether delivery
succeeds or fails; with no webhook configured every attempt is a skip; and
whenever a whale is committed, its fingerprint is already in `seenAlerts`
and the whale is in `recentWhales` in the state the notify attempt
observes (the ledger and ring are updated before `sendDiscordAlert` runs,
which itself returns an outcome rather than throwing). -/
theorem notify_best_effort (cfg : KalshiServer.Config) (ticker title side now : String)
    (st : KalshiServer.ServerState) (o : KalshiServer.OrderLevel) :
    (KalshiServer.processOrder cfg ticker title side now true st o).1
      = (KalshiServer.processOrder cfg ticker title side now false st o).1
    ∧ (KalshiServer.processOrder cfg ticker title side now true st o).2.1
      = (KalshiServer.processOrder cfg ticker title side now false st o).2.1
    ∧ (cfg.discordWebhook = "" →
        ∀ d : Bool, KalshiServer.sendDiscordAlert cfg d
          = KalshiServer.NotifyOutcome.skippedNoEndpoint)
    ∧ (∀ (d : Bool) (w : KalshiServer.Whale),
        w ∈ (KalshiServer.processOrder cfg ticker title side now d st o).2.1 →
        KalshiServer.createOrderHash ticker side (o.price.getD 0) (o.count.getD 0)
          ∈ (KalshiServer.processOrder cfg ticker title side now d st o).1.seenAlerts
        ∧ w ∈ (KalshiServer.processOrder cfg ticker title side now d st o).1.recentWhales) := by
  refine ⟨?_, ?_, ?_, ?_⟩
  · simp only [processOrder]
    by_cases hv : (cfg.minTradeSize : Rat) ≤ orderValue (o.count.getD 0) (o.price.getD 0)
    · rw [if_pos hv, if_pos hv]
      by_cases hmem :
          createOrderHash ticker side (o.price.getD 0) (o.count.getD 0) ∈ st.seenAlerts
      · rw [if_pos hmem, if_pos hmem]
      · rw [if_neg hmem, if_neg hmem]
    · rw [if_neg hv, if_neg hv]
  · simp only [processOrder]
    by_cases hv : (cfg.minTradeSize : Rat) ≤ orderValue (o.count.getD 0) (o.price.getD 0)
    · rw [if_pos hv, if_pos hv]
      by_cases hmem :
          createOrderHash ticker side (o.price.getD 0) (o.count.getD 0) ∈ st.seenAlerts
      · rw [if_pos hmem, if_pos hmem]
      · rw [if_neg hmem, if_neg hmem]
    · rw [if_neg hv, if_neg hv]
  · intro h d
    unfold sendDiscordAlert
    rw [if_pos h]
  · intro d w hw
    by_cases hv : (cfg.minTradeSize : Rat) ≤ orderValue (o.count.getD 0) (o.price.getD 0)
    · by_cases hmem :
          createOrderHash ticker side (o.price.getD 0) (o.count.getD 0) ∈ st.seenAlerts
      · rw [processOrder_seen cfg ticker title side now d st o hmem] at hw
        exact absurd hw (List.not_mem_nil w)
      · rw [processOrder_new cfg ticker title side now d st o hv hmem] at hw ⊢
        have hw' := List.mem_singleton.mp hw
        refine ⟨List.mem_append_right _ (List.mem_singleton_self _), ?_⟩
        rw [hw']
        exact mem_pushRecent_self _ _
    · rw [processOrder_below cfg ticker title side now d st o hv] at hw
      exact absurd hw (List.not_mem_nil w)

/-- C7 witness: concrete qualifying order from the empty state. -/
theorem notify_best_effort_witness :
    (KalshiServer.processOrder ⟨15000, ""⟩ "KXT" "T" "YES" "t1" true ⟨[], []⟩
        ⟨some 500, some 3001⟩).1
      = (KalshiServer.processOrder ⟨15000, ""⟩ "KXT" "T" "YES" "t1" false ⟨[], []⟩
          ⟨some 500, some 3001⟩).1
    ∧ (KalshiServer.processOrder ⟨15000, ""⟩ "KXT" "T" "YES" "t1" true ⟨[], []⟩
         ⟨some 500, some 3001⟩).2.1
      = (KalshiServer.processOrder ⟨15000, ""⟩ "KXT" "T" "YES" "t1" false ⟨[], []⟩
          ⟨some 500, some 3001⟩).2.1
    ∧ ((KalshiServer.Config.mk 15000 ("")).discordWebhook = "" →
        ∀ d : Bool, KalshiServer.sendDiscordAlert ⟨15000, ""⟩ d
          = KalshiServer.NotifyOutcome.skippedNoEndpoint)
    ∧ (∀ (d : Bool) (w : KalshiServer.Whale),
        w ∈ (KalshiServer.processOrder ⟨15000, ""⟩ "KXT" "T" "YES" "t1" d ⟨[], []⟩
          ⟨some 500, some 3001⟩).2.1 →
        KalshiServer.createOrderHash ("KXT") ("YES")
            ((KalshiServer.OrderLevel.mk (some 500) (some 3001)).price.getD 0)
            ((KalshiServer.OrderLevel.mk (some 500) (some 3001)).count.getD 0)
          ∈ (KalshiServer.processOrder ⟨15000, ""⟩ "KXT" "T" "YES" "t1" d ⟨[], []⟩
              ⟨some 500, some 3001⟩).1.seenAlerts
        ∧ w ∈ (KalshiServer.processOrder ⟨15000, ""⟩ "KXT" "T" "YES" "t1" d ⟨[], []⟩
            ⟨some 500, some 3001⟩).1.recentWhales) :=
  notify_best_effort ⟨15000, ""⟩ "KXT" "T" "YES" "t1" ⟨[], []⟩ ⟨some 500, some 3001⟩

/-- C8 counterexample: the Polymarket variant's `POST /api/config` endpoint
mutates the configuration that detection reads: after a request setting
`minTradeSize` to 1, a trade of notional 5000 that detection previously
rejected is committed. -/
theorem http_config_mutation :
    (PolymarketServer.postConfig ⟨10000, 7, ""⟩ ⟨some 1, none, none⟩).minTradeSize
      ≠ (PolymarketServer.Config.mk 10000 7 ("")).minTradeSize
    ∧ (PolymarketServer.processTrade ⟨10000, 7, ""⟩ (fun _ => some 3) "M" ⟨[], []⟩
        ⟨"t1", "BUY", some 100, some 50, "0xa"⟩).2 = none
    ∧ (PolymarketServer.processTrade
        (PolymarketServer.postConfig ⟨10000, 7, ""⟩ ⟨some 1, none, none⟩)
        (fun _ => some 3) "M" ⟨[], []⟩
        ⟨"t1", "BUY", some 100, some 50, "0xa"⟩).2.isSome = true := by
  have hcfg : PolymarketServer.postConfig ⟨10000, 7, ""⟩ ⟨some 1, none, none⟩
      = PolymarketServer.Config.mk 1 7 ("") := by
    simp [PolymarketServer.postConfig]
  refine ⟨by rw [hcfg]; norm_num, ?_, ?_⟩
  · simp only [PolymarketServer.processTrade]
    norm_num
  · rw [hcfg]
    simp only [PolymarketServer.processTrade]
    norm_num

/-- C8 (amended): every GET endpoint of both variants is read-only — the
state it returns is the state it was given, so detection behaviour after a
handled GET request is unchanged — but the Polymarket variant's
`POST /api/config` does mutate the detection configuration (see the
counterexample). -/
theorem get_endpoints_readonly (cfg : KalshiServer.Config)
    (st : KalshiServer.ServerState) (uptime : Int)
    (pcfg : PolymarketServer.Config) (pst : PolymarketServer.PState)
    (ticker title side now : String) (d : Bool) (o : KalshiServer.OrderLevel) :
    (KalshiServer.apiWhales cfg st).2 = st
    ∧ (KalshiServer.apiStats st).2 = st
    ∧ (KalshiServer.apiHealth uptime st).2 = st
    ∧ (PolymarketServer.apiTrades pcfg pst).2 = pst
    ∧ (PolymarketServer.apiStatsPm pst).2 = pst
    ∧ (PolymarketServer.apiHealthPm pst).2 = pst
    ∧ KalshiServer.processOrder cfg ticker title side now d
        (KalshiServer.apiWhales cfg st).2 o
      = KalshiServer.processOrder cfg ticker title side now d st o :=
  ⟨rfl, rfl, rfl, rfl, rfl, rfl, rfl⟩

/-- C9 counterexample: the trade-feed variant does not suppress its first
cycle: starting from the fresh (empty) state, the first polling cycle over
a feed pre-seeded with one qualifying historical trade (notional 15000 at
threshold 10000, wallet age 3 ≤ 7) emits one detected event, not zero. -/
theorem first_cycle_trade_feed_emits :
    (PolymarketServer.processTrades ⟨10000, 7, ""⟩ (fun _ => some 3) "M" ⟨[], []⟩
      [⟨"h1", "BUY", some 300, some 50, "0xb"⟩]).2.length = 1 := by
  simp only [PolymarketServer.processTrades, List.foldl_cons, List.foldl_nil,
    PolymarketServer.processTrade]
  norm_num

/-- C9 (amended, log-based scanner modelled from the spec): the log-based
scanner's very first cycle establishes the current head as its starting
position and emits zero events even over a log pre-seeded with qualifying
entries; in every later cycle only entries strictly beyond the established
position (and meeting the threshold) are emitted. The trade-feed variant
present in the sources does not suppress its first cycle (see the
counterexample). -/
theorem log_scanner_first_cycle (threshold : Rat) (head : Nat)
    (log : List LogScanner.LogEntry) (st : LogScanner.ScannerState) (p : Nat) :
    (LogScanner.scanCycle threshold ⟨none⟩ head log).2 = []
    ∧ (LogScanner.scanCycle threshold ⟨none⟩ head log).1.position = some head
    ∧ (st.position = some p →
        ∀ e ∈ (LogScanner.scanCycle threshold st head log).2,
          p < e.blockNum ∧ threshold ≤ e.notional) := by
  refine ⟨rfl, rfl, ?_⟩
  intro hp e he
  rcases st with ⟨pos⟩
  cases pos with
  | none => simp at hp
  | some q =>
    have hq : q = p := by
      simpa using hp
    subst hq
    simp only [LogScanner.scanCycle] at he
    rw [List.mem_filter] at he
    have h2 := he.2
    simp only [Bool.and_eq_true, decide_eq_true_eq] at h2
    exact h2

/-- C9 witness: a log pre-seeded with one qualifying entry below the head,
scanned from the fresh state and from an established position. -/
theorem log_scanner_first_cycle_witness :
    (LogScanner.ScannerState.mk (some 4)).position = some 4
    ∧ ((LogScanner.scanCycle 5 ⟨none⟩ 10 [⟨9, 7⟩]).2 = []
       ∧ (LogScanner.scanCycle 5 ⟨none⟩ 10 [⟨9, 7⟩]).1.position = some 10
       ∧ ((LogScanner.ScannerState.mk (some 4)).position = some 4 →
           ∀ e ∈ (LogScanner.scanCycle 5 ⟨some 4⟩ 10 [⟨9, 7⟩]).2,
             4 < e.blockNum ∧ (5 : Rat) ≤ e.notional)) :=
  ⟨rfl, log_scanner_first_cycle 5 10 [⟨9, 7⟩] ⟨some 4⟩ 4⟩

end RemainingClaims
